import Mathlib

/-!
Verification development for the telegram-to-whatsapp router.

Shallow embedding of the program's core functions:
  * `whatsapp_sender.py`: the text splitter `_split_text`, the size limits,
    and the caption handling of `send_media`;
  * `router.py`: media classification (`_detect_media`), single-message
    forwarding (`_forward_single`), album flushing (`_flush_album`),
    the pending-album map discipline (`forward` / `flush_pending`);
  * `content_filter.py`: the filter pipeline (`evaluate` / `_run_filter`).

Texts are embedded as `List Char` where character-level slicing matters
(the splitter, caption cutting) and as `String` at the router level.
Collaborator calls (media download, sink sends, LLM invocations) are
embedded as explicit effect traces or as function parameters.  Machine
strings, timestamps and HTTP plumbing that no verified property depends
on are represented opaquely (a pre-rendered local-time string, byte
payloads as `List Nat`).
-/

namespace TgWa

/-! ### `whatsapp_sender._split_text` -/

/-- The character set of Python `lstrip("\n ")`: newline and space. -/
def is_nl_sp (c : Char) : Bool := c = '\n' || c = ' '

/-- ASCII part of Python's whitespace class, as used by `str.lstrip()`
and `str.strip()` with no arguments. -/
def is_py_space (c : Char) : Bool :=
  c = ' ' || c = '\t' || c = '\n' || c = '\r' || c = '\x0b' || c = '\x0c'

/-- `text[cut:].lstrip("\n ")` strips this prefix. -/
def lstrip_nl_sp (s : List Char) : List Char := s.dropWhile is_nl_sp

/-- `s.lstrip()` (no argument): strip leading whitespace. -/
def py_lstrip (s : List Char) : List Char := s.dropWhile is_py_space

/-- `s.strip()` (no argument): strip leading and trailing whitespace. -/
def py_strip (s : List Char) : List Char :=
  ((s.dropWhile is_py_space).reverse.dropWhile is_py_space).reverse

/-- Helper for Python `str.rfind(ch, 0, limit)`: scan left to right
remembering the last index where the character occurs. -/
def rfind_aux (c : Char) : List Char → Nat → Int → Int
  | [], _, best => best
  | x :: xs, i, best => rfind_aux c xs (i + 1) (if x = c then (i : Int) else best)

/-- Python `text.rfind(ch, 0, limit)`: highest index `< limit` at which
`ch` occurs in `text`, or `-1` when there is none. -/
def rfind (s : List Char) (c : Char) (limit : Nat) : Int :=
  rfind_aux c (s.take limit) 0 (-1)

/-- The cut-point computation inside the `while` loop of `_split_text`:
last newline before `limit`, else last space before `limit`, else `limit`
(a result at index 0 counts as not found, as in `if cut <= 0`). -/
def cut_at (limit : Nat) (text : List Char) : Nat :=
  let cut1 := rfind text '\n' limit
  let cut2 := if cut1 ≤ 0 then rfind text ' ' limit else cut1
  let cut3 := if cut2 ≤ 0 then (limit : Int) else cut2
  cut3.toNat

/-- The `while text:` loop of `_split_text`.  The loop consumes at least
one character per iteration whenever `0 < limit`, so the fuel argument
(instantiated with `text.length` by `split_text`) never runs out. -/
def split_go (limit : Nat) : Nat → List Char → List (List Char)
  | 0, _ => []
  | fuel + 1, text =>
    if text.isEmpty then []
    else if text.length ≤ limit then [text]
    else
      let c := cut_at limit text
      text.take c :: split_go limit fuel (lstrip_nl_sp (text.drop c))

/-- `whatsapp_sender._split_text(text, limit)`. -/
def split_text (text : List Char) (limit : Nat) : List (List Char) :=
  if text.length ≤ limit then [text] else split_go limit text.length text

/-- `whatsapp_sender.MAX_TEXT`. -/
def MAX_TEXT : Nat := 4096

/-- `whatsapp_sender.MAX_CAPTION`. -/
def MAX_CAPTION : Nat := 1024

/-! ### `whatsapp_sender.WhatsAppSender.send_media` (caption handling)

The HTTP transport is out of scope; what the core controls is the
caption field put in the payload and the follow-up text messages (each
of which goes through `send_text`, i.e. `_split_text` with `MAX_TEXT`).
The media id is an opaque server token and is not modelled. -/

structure MediaPayload where
  /-- The `caption` entry of the media object, when one is set. -/
  caption_field : Option (List Char)
  /-- Bodies of the follow-up `send_text` messages for the overflow. -/
  trailing_bodies : List (List Char)
deriving DecidableEq, Repr

/-- Python truthiness of an optional string (`None` and `""` are falsy). -/
def truthy : Option (List Char) → Bool
  | none => false
  | some s => !s.isEmpty

/-- Caption handling of `WhatsAppSender.send_media(media_type, media_id,
caption)`: the caption is attached only for image/video/document; above
`MAX_CAPTION` it is cut at the last space before the limit (hard cut at
`MAX_CAPTION` when there is none) and the left-stripped remainder, when
non-empty (`if overflow:`), is re-sent through `send_text`. -/
def send_media_payload (media_type : String) (caption : Option (List Char)) :
    MediaPayload :=
  if truthy caption ∧ (media_type = "image" ∨ media_type = "video" ∨ media_type = "document") then
    let cap := caption.getD []
    if MAX_CAPTION < cap.length then
      let cut0 := rfind cap ' ' MAX_CAPTION
      let cut := (if cut0 ≤ 0 then (MAX_CAPTION : Int) else cut0).toNat
      let overflow := py_lstrip (cap.drop cut)
      { caption_field := some (cap.take cut)
        trailing_bodies := if overflow.isEmpty then [] else split_text overflow MAX_TEXT }
    else
      { caption_field := some cap, trailing_bodies := [] }
  else
    { caption_field := none, trailing_bodies := [] }

/-! ### `router.MessageRouter._detect_media`

Telethon document attributes, restricted to the fields the router reads.
-/

inductive DocAttr where
  /-- `DocumentAttributeFilename(file_name)` -/
  | filename (file_name : String)
  /-- `DocumentAttributeVideo(round_message)` -/
  | video (round_message : Bool)
  /-- `DocumentAttributeAudio(voice)` -/
  | audio (voice : Bool)
  /-- `DocumentAttributeSticker` -/
  | sticker
  /-- `DocumentAttributeAnimated` -/
  | animated
deriving DecidableEq, Repr

structure TLDocument where
  /-- `doc.mime_type`, `None` or a string (`""` is falsy like `None`). -/
  mime_type : Option String
  attributes : List DocAttr
deriving DecidableEq, Repr

/-- Python `a or b` on an optional string: `None` and `""` are falsy. -/
def py_or_str (a : Option String) (b : String) : String :=
  match a with
  | some s => if s = "" then b else s
  | none => b

/-- The mutable locals of the attribute loop in `_detect_media`. -/
structure AttrScan where
  filename : String
  is_voice : Bool
  is_video : Bool
  is_audio : Bool
  is_sticker : Bool
  is_gif : Bool
deriving DecidableEq, Repr

/-- Initial values of the loop locals: filename `"file"`, all flags false. -/
def attr_scan_init : AttrScan :=
  { filename := "file", is_voice := false, is_video := false
    is_audio := false, is_sticker := false, is_gif := false }

/-- One iteration of the `for attr in doc.attributes:` loop. -/
def scan_attr (st : AttrScan) : DocAttr → AttrScan
  | .filename fn => { st with filename := fn }
  | .video round =>
    { st with is_video := true, filename := if round then "video_note.mp4" else st.filename }
  | .audio voice =>
    if voice then { st with is_audio := true, is_voice := true, filename := "voice.ogg" }
    else { st with is_audio := true }
  | .sticker => { st with is_sticker := true, filename := "sticker.webp" }
  | .animated => { st with is_gif := true }

/-- An inbound Telegram message, restricted to the fields the router
reads.  `text = ""` stands for both `None` and the empty string (they
behave identically under Python truthiness).  `local_time` is the
pre-rendered `message.date.astimezone().strftime("%Y-%m-%d %H:%M")`
string (timezone formatting is opaque here).  `download_result` is the
value `message.download_media(bytes)` returns (`none` models `None`).
`chat_username` is `getattr(message.get_chat(), "username", None)`. -/
structure Message where
  id : Nat
  text : String
  grouped_id : Option Nat
  has_photo : Bool
  document : Option TLDocument
  download_result : Option (List Nat)
  chat_username : Option String
  local_time : String
deriving DecidableEq, Repr

/-- `MessageRouter._detect_media(message)`:
`(wa_type, mime, filename)` or `None`. -/
def detect_media (m : Message) : Option (String × String × String) :=
  if m.has_photo then some ("image", "image/jpeg", "photo.jpg")
  else
    match m.document with
    | none => none
    | some doc =>
      let mime := py_or_str doc.mime_type "application/octet-stream"
      let st := doc.attributes.foldl scan_attr attr_scan_init
      if st.is_sticker then some ("sticker", mime, st.filename)
      else if st.is_voice then some ("audio", "audio/ogg", st.filename)
      else if st.is_audio then some ("audio", mime, st.filename)
      else if st.is_video || st.is_gif then some ("video", mime, st.filename)
      else some ("document", mime, st.filename)

/-! ### `content_filter.py` -/

inductive Action where
  | FORWARD
  | SKIP
deriving DecidableEq, Repr

structure FilterDecision where
  action : Action
  reason : String
deriving DecidableEq, Repr

structure FilterResult where
  action : Action
  reason : String
  filter_name : String
deriving DecidableEq, Repr

/-- `config.FilterRule`. -/
structure FilterRule where
  name : String
  prompt : String
deriving DecidableEq, Repr

/-- `BASE_SYSTEM_PROMPT.format(prompt=prompt)`. -/
def base_system_prompt (prompt : String) : String :=
  "You are a content filter for a Telegram-to-WhatsApp message forwarder.\nAnalyze the message and decide if it should be forwarded or skipped based on the following rule:\n\n"
    ++ prompt

/-- The LLM collaborator: given the system prompt and the user text it
either returns a parsed decision or raises (`Except.error`). -/
abbrev Llm : Type := String → String → Except Unit FilterDecision

/-- `ContentFilter._run_filter(name, prompt, text)`: invoke the LLM with
the formatted system prompt; any raised error is caught and becomes a
`FORWARD` result with reason "Filter error" (fail-open). -/
def run_filter (llm : Llm) (name prompt text : String) : FilterResult :=
  match llm (base_system_prompt prompt) text with
  | .ok d => { action := d.action, reason := d.reason, filter_name := name }
  | .error _ => { action := .FORWARD, reason := "Filter error", filter_name := name }

/-- The `for rule in self.config.filters:` loop of
`ContentFilter.evaluate`, also recording which rules invoked the
collaborator (the second component, in invocation order). -/
def eval_loop (llm : Llm) (text : String) : List FilterRule → FilterResult × List String
  | [] => ({ action := .FORWARD, reason := "Passed all filters", filter_name := "all" }, [])
  | rule :: rest =>
    let decision := run_filter llm rule.name rule.prompt text
    if decision.action = .SKIP then (decision, [rule.name])
    else
      let r := eval_loop llm text rest
      (r.1, rule.name :: r.2)

/-- `ContentFilter.evaluate(text)` with the configured rule list made
explicit, returning the result together with the names of the rules for
which the collaborator was invoked. -/
def evaluate (llm : Llm) (filters : List FilterRule) (text : String) :
    FilterResult × List String :=
  if text = "" ∨ py_strip text.toList = [] then
    ({ action := .FORWARD, reason := "No text to analyze", filter_name := "none" }, [])
  else if filters = [] then
    ({ action := .FORWARD, reason := "No filters configured", filter_name := "none" }, [])
  else eval_loop llm text filters

/-! ### `router.py`: effect traces

Collaborator calls made while processing one unit of work, in program
order.  `download_media` records a media-fetch attempt on a message;
`upload_media` and `send_media` are the sink calls (the server-assigned
media id that flows from an upload into the following `send_media` call
is an opaque token and is not modelled; each `send_media` uses the id of
the `upload_media` call immediately before it). -/

inductive Effect where
  | send_text (text : String)
  | download_media (msg_id : Nat)
  | upload_media (bytes : List Nat) (mime : String) (filename : String)
  | send_media (wa_type : String) (caption : Option String)
deriving DecidableEq, Repr

/-- `router.WA_SUPPORTED_MIMES`. -/
def WA_SUPPORTED_MIMES : List String :=
  [ "audio/aac", "audio/mp4", "audio/mpeg", "audio/amr", "audio/ogg", "audio/opus",
    "application/vnd.ms-powerpoint", "application/msword",
    "application/vnd.openxmlformats-officedocument.wordprocessingml.document",
    "application/vnd.openxmlformats-officedocument.presentationml.presentation",
    "application/vnd.openxmlformats-officedocument.spreadsheetml.sheet",
    "application/pdf", "text/plain", "application/vnd.ms-excel",
    "image/jpeg", "image/png", "image/webp",
    "video/mp4", "video/3gpp" ]

/-- `MessageRouter._build_source_link(chat, message_id)`; the username is
falsy (`None` or `""`) or a deep link is built. -/
def build_source_link (username : Option String) (message_id : Nat) : Option String :=
  match username with
  | some u => if u = "" then none else some ("https://t.me/" ++ u ++ "/" ++ toString message_id)
  | none => none

/-- `MessageRouter._format_header(channel_name, timestamp, source_link)`. -/
def format_header (channel_name local_time : String) (source_link : Option String) : String :=
  let header := "[" ++ channel_name ++ "] " ++ local_time
  match source_link with
  | some l => header ++ "\n" ++ l
  | none => header

/-- `MessageRouter._format_text(...)`. -/
def format_text (channel_name local_time text : String) (source_link : Option String) : String :=
  format_header channel_name local_time source_link ++ "\n\n" ++ text

/-- `MessageRouter._format_caption(...)` (`text` may be falsy). -/
def format_caption (channel_name local_time : String) (text : Option String)
    (source_link : Option String) : String :=
  let header := format_header channel_name local_time source_link
  match text with
  | some t => if t = "" then header else header ++ "\n\n" ++ t
  | none => header

/-- The skip-notification body built in `_forward_single` and
`_flush_album`. -/
def skip_message (channel_name : String) (result : FilterResult)
    (source_link : Option String) : String :=
  let s := "[Skipped from " ++ channel_name ++ "] (" ++ result.filter_name ++ ") "
    ++ result.reason
  match source_link with
  | some l => s ++ "\n" ++ l
  | none => s

/-- The unsupported-media notification body built in `_forward_single`.
The separator reproduces the literal characters of the source line
(mojibake `U+00E2 U+20AC U+201D`, not an em-dash). -/
def unsupported_message (channel_name mime : String) (source_link : Option String) : String :=
  let s := "[" ++ channel_name ++ "] Unsupported media (" ++ mime
    ++ ") â€” view on Telegram"
  match source_link with
  | some l => s ++ "\n" ++ l
  | none => s

/-- The router's filter collaborator: `ContentFilter.evaluate` seen as a
function from text to result (`none` models `content_filter=None`). -/
abbrev RouterFilter : Type := Option (String → FilterResult)

/-- `MessageRouter._forward_single(channel_name, message)` as the trace
of collaborator calls it performs. -/
def forward_single (filt : RouterFilter) (channel_name : String) (m : Message) :
    List Effect :=
  let source_link := build_source_link m.chat_username m.id
  let skip_effects : Option (List Effect) :=
    match filt with
    | some f =>
      if m.text ≠ "" then
        let result := f m.text
        if result.action = .SKIP then
          some [.send_text (skip_message channel_name result source_link)]
        else none
      else none
    | none => none
  match skip_effects with
  | some effects => effects
  | none =>
    match detect_media m with
    | none =>
      if m.text = "" then []
      else [.send_text (format_text channel_name m.local_time m.text source_link)]
    | some (wa_type, mime, filename) =>
      if mime ∉ WA_SUPPORTED_MIMES then
        [.send_text (unsupported_message channel_name mime source_link)]
      else
        let caption := format_caption channel_name m.local_time (some m.text) source_link
        match m.download_result with
        | none =>
          .download_media m.id ::
            (if m.text ≠ "" then
              [.send_text (format_text channel_name m.local_time m.text source_link)]
            else [])
        | some bytes =>
          [ .download_media m.id, .upload_media bytes mime filename,
            .send_media wa_type (some caption) ]

/-- `next((m.text for m in messages if m.text), None)`: text of the first
message with truthy text. -/
def album_text_of (messages : List Message) : Option String :=
  (messages.find? (fun m => m.text ≠ "")).map (·.text)

/-- One iteration of the `for msg in messages:` loop of `_flush_album`.
The accumulator carries the effect trace so far and the `is_first` flag. -/
def album_loop_step (caption : String) (acc : List Effect × Bool) (msg : Message) :
    List Effect × Bool :=
  match detect_media msg with
  | none => acc
  | some (wa_type, mime, filename) =>
    if mime ∉ WA_SUPPORTED_MIMES then acc
    else
      match msg.download_result with
      | none => (acc.1 ++ [.download_media msg.id], acc.2)
      | some bytes =>
        (acc.1 ++
          [ .download_media msg.id, .upload_media bytes mime filename,
            .send_media wa_type (if acc.2 then some caption else none) ],
          false)

/-- The body of `MessageRouter._flush_album` after the album has been
popped from the pending map: processing a popped album's channel name
and buffered messages into the trace of collaborator calls. -/
def flush_album_msgs (filt : RouterFilter) (channel_name : String)
    (messages : List Message) : List Effect :=
  match messages with
  | [] => []
  | first :: _ =>
    let album_text := album_text_of messages
    let source_link := build_source_link first.chat_username first.id
    let skip_effects : Option (List Effect) :=
      match album_text, filt with
      | some t, some f =>
        if t ≠ "" then
          let result := f t
          if result.action = .SKIP then
            some [.send_text (skip_message channel_name result source_link)]
          else none
        else none
      | _, _ => none
    match skip_effects with
    | some effects => effects
    | none =>
      let caption := format_caption channel_name first.local_time album_text source_link
      let r := messages.foldl (album_loop_step caption) ([], true)
      if r.2 then
        match album_text with
        | some t =>
          r.1 ++ [.send_text (format_text channel_name first.local_time t source_link)]
        | none => r.1
      else r.1

/-! ### `router.py`: the pending-album map

`MessageRouter._pending_albums` is a Python dict from `grouped_id` to
`_PendingAlbum`; it is embedded as an insertion-ordered association
list (new keys are appended at the end, as in a Python dict).  Timer
handles are not part of the state: a timer firing for group `gid` and a
forced flush both reduce to calling `_flush_album(gid)`, which is the
`flush_album_step` transition below. -/

structure PendingAlbum where
  channel_name : String
  messages : List Message
deriving DecidableEq, Repr

abbrev Pending : Type := List (Nat × PendingAlbum)

/-- Dict lookup `self._pending_albums[gid]` / `.get(gid)`. -/
def lookup_pending (st : Pending) (gid : Nat) : Option PendingAlbum :=
  (st.find? (fun e => e.1 = gid)).map (·.2)

/-- Key removal, as performed by `self._pending_albums.pop(gid, None)`. -/
def remove_pending (st : Pending) (gid : Nat) : Pending :=
  st.filter (fun e => e.1 ≠ gid)

/-- In-place value update for an existing key (dict assignment keeps the
key's position). -/
def update_pending (st : Pending) (gid : Nat) (album : PendingAlbum) : Pending :=
  st.map (fun e => if e.1 = gid then (e.1, album) else e)

/-- The album branch of `MessageRouter.forward`: append to an existing
pending album, or create a new one seeded with this message (a new dict
key is appended at the end). -/
def add_to_album (st : Pending) (gid : Nat) (channel_name : String) (m : Message) :
    Pending :=
  match lookup_pending st gid with
  | some album => update_pending st gid { album with messages := album.messages ++ [m] }
  | none => st ++ [(gid, { channel_name := channel_name, messages := [m] })]

/-- `MessageRouter._flush_album(gid)`: pop the group from the pending map
(returning with no effects when it is absent), then process its
messages.  The removal happens before any message is processed. -/
def flush_album_step (filt : RouterFilter) (st : Pending) (gid : Nat) :
    Pending × List Effect :=
  match lookup_pending st gid with
  | none => (st, [])
  | some album =>
    (remove_pending st gid, flush_album_msgs filt album.channel_name album.messages)

/-- `MessageRouter.flush_pending()`: snapshot the key list, then flush
every group (timer cancellation has no trace effect). -/
def flush_pending_all (filt : RouterFilter) (st : Pending) : Pending × List Effect :=
  (st.map Prod.fst).foldl
    (fun acc gid =>
      let r := flush_album_step filt acc.1 gid
      (r.1, acc.2 ++ r.2))
    (st, [])

/-- `MessageRouter.forward(channel_name, message)`: messages without a
truthy `grouped_id` (Python treats `None` and `0` as falsy) go through
`_forward_single`; the rest are buffered. -/
def forward_step (filt : RouterFilter) (st : Pending) (channel_name : String)
    (m : Message) : Pending × List Effect :=
  match m.grouped_id with
  | none => (st, forward_single filt channel_name m)
  | some gid =>
    if gid = 0 then (st, forward_single filt channel_name m)
    else (add_to_album st gid channel_name m, [])

/-! ### Derived notions used to state the verified properties -/

/-- `WhatsAppSender.send_text(text)` posts one message per chunk of
`_split_text(text, MAX_TEXT)`; these are the message bodies. -/
def send_text_bodies (text : List Char) : List (List Char) := split_text text MAX_TEXT

/-- The keys of the pending-album map. -/
def pending_keys (st : Pending) : List Nat := st.map Prod.fst

/-- An album member on the happy path: classified, supported, and its
download succeeds. -/
def member_ok (m : Message) : Bool :=
  match detect_media m, m.download_result with
  | some (_, mime, _), some _ => mime ∈ WA_SUPPORTED_MIMES
  | _, _ => false

/-- An album member the loop excludes: no media, unsupported mime, or
failed download. -/
def excluded (m : Message) : Bool :=
  match detect_media m with
  | none => true
  | some (_, mime, _) => mime ∉ WA_SUPPORTED_MIMES || m.download_result = none

/-- The filename, if any, that one attribute-loop iteration writes into
the `filename` local of `_detect_media`. -/
def sets_filename : DocAttr → Option String
  | .filename fn => some fn
  | .video round => if round then some "video_note.mp4" else none
  | .audio voice => if voice then some "voice.ogg" else none
  | .sticker => some "sticker.webp"
  | .animated => none

/-- Follows the spec (amended): the filename the classifier reports is
the one written by the last filename-setting attribute in list order,
defaulting to `"file"`. -/
def last_set_filename (attrs : List DocAttr) : String :=
  ((attrs.filterMap sets_filename).getLast?).getD "file"

/-- Follows the spec: the album-loop trace for an arbitrary member mix —
every deliverable member contributes its fetch-upload-send triple (the
caption going to the first delivered member only), a supported member
whose download fails contributes just the fetch attempt, and members
without media or with unsupported mime are silently excluded. -/
def mixed_members (caption : String) : Bool → List Message → List Effect
  | _, [] => []
  | is_first, m :: rest =>
    match detect_media m with
    | none => mixed_members caption is_first rest
    | some (wa_type, mime, filename) =>
      if mime ∈ WA_SUPPORTED_MIMES then
        match m.download_result with
        | none => .download_media m.id :: mixed_members caption is_first rest
        | some bytes =>
          .download_media m.id :: .upload_media bytes mime filename ::
            .send_media wa_type (if is_first then some caption else none) ::
              mixed_members caption false rest
      else mixed_members caption is_first rest

/-- Happy-path effects of one member: fetch, upload, send (with the
given caption argument). -/
def member_effects (m : Message) (caption : Option String) : List Effect :=
  match detect_media m, m.download_result with
  | some (wa_type, mime, filename), some bytes =>
    [ .download_media m.id, .upload_media bytes mime filename,
      .send_media wa_type caption ]
  | _, _ => []

/-- Follows the spec: happy-path trace of an album — every member is
fetched, uploaded and sent, in arrival order, and only the first member
carries the caption. -/
def happy_members (caption : String) : Bool → List Message → List Effect
  | _, [] => []
  | is_first, m :: rest =>
    member_effects m (if is_first then some caption else none) ++
      happy_members caption false rest

/-- Follows the spec: for an album whose members are all excluded, the
only effects before the text fallback are the failed download attempts
of its supported members. -/
def attempted_downloads (messages : List Message) : List Effect :=
  (messages.map (fun m =>
    match detect_media m with
    | some (_, mime, _) =>
      if mime ∈ WA_SUPPORTED_MIMES ∧ m.download_result = none then
        [Effect.download_media m.id]
      else []
    | none => [])).flatten

/-- The caption arguments of the `send_media` calls of a trace, in
order. -/
def send_media_captions (trace : List Effect) : List (Option String) :=
  trace.filterMap (fun e =>
    match e with
    | .send_media _ caption => some caption
    | _ => none)

/-- A photo message used as a concrete evaluation input. -/
def ex_msg (i : Nat) (text : String) : Message :=
  { id := i, text := text, grouped_id := none, has_photo := true, document := none
    download_result := some [7, 8, 9], chat_username := some "chan"
    local_time := "2026-02-13 14:30" }

/-- A concrete LLM collaborator for evaluation: produces a skip verdict
exactly when the system prompt was built from rule prompt `"p2"`,
forwards otherwise. -/
def ex_llm : Llm := fun sys _ =>
  if sys = base_system_prompt "p2" then .ok { action := .SKIP, reason := "bad" }
  else .ok { action := .FORWARD, reason := "ok" }

/-- A document message with the given attributes, used as a concrete
evaluation input. -/
def doc_msg (attrs : List DocAttr) : Message :=
  { id := 1, text := "", grouped_id := none, has_photo := false
    document := some { mime_type := none, attributes := attrs }
    download_result := none, chat_username := none, local_time := "" }

/-! ### Reassembly up to stripped whitespace -/

/-- `Reassembles white T cs`: the original text `T` is the chunks `cs`
in order, interleaved with separator runs whose characters all satisfy
`white` (the characters a splitter stripped at chunk boundaries). -/
inductive Reassembles (white : Char → Bool) : List Char → List (List Char) → Prop
  | nil : Reassembles white [] []
  | cons (c w rest : List Char) (cs : List (List Char))
      (hw : ∀ x ∈ w, white x = true)
      (h : Reassembles white rest cs) :
      Reassembles white (c ++ (w ++ rest)) (c :: cs)

lemma Reassembles.single (white : Char → Bool) (c : List Char) :
    Reassembles white c [c] := by
  simpa using @Reassembles.cons white c [] [] [] (by simp) .nil

lemma Reassembles.mono {w1 w2 : Char → Bool} (hsub : ∀ c, w1 c = true → w2 c = true)
    {T : List Char} {cs : List (List Char)} (h : Reassembles w1 T cs) :
    Reassembles w2 T cs := by
  induction h with
  | nil => exact .nil
  | cons c w rest cs hw _ ih => exact .cons c w rest cs (fun x hx => hsub x (hw x hx)) ih

/-! ### Chunker lemmas -/

lemma rfind_aux_cases (c : Char) (xs : List Char) :
    ∀ (i : Nat) (best : Int), rfind_aux c xs i best = best ∨
      ((i : Int) ≤ rfind_aux c xs i best ∧
        rfind_aux c xs i best < (i : Int) + xs.length) := by
  induction xs with
  | nil => intro i best; exact Or.inl rfl
  | cons x xs ih =>
    intro i best
    simp only [rfind_aux]
    rcases ih (i + 1) (if x = c then (i : Int) else best) with h | h
    · rw [h]
      by_cases hx : x = c
      · rw [if_pos hx]
        right
        constructor
        · omega
        · have : (0 : Int) < ((x :: xs).length : Int) := by
            simp only [List.length_cons]; push_cast; omega
          omega
      · rw [if_neg hx]; exact Or.inl rfl
    · right
      have hlen : ((x :: xs).length : Int) = (xs.length : Int) + 1 := by
        simp only [List.length_cons]; push_cast; omega
      push_cast at h ⊢
      omega

lemma rfind_lt (s : List Char) (c : Char) (limit : Nat) :
    rfind s c limit < (limit : Int) := by
  unfold rfind
  rcases rfind_aux_cases c (s.take limit) 0 (-1) with h | h
  · rw [h]; omega
  · have hlen : (s.take limit).length ≤ limit := by
      rw [List.length_take]; omega
    omega

lemma cut_at_pos (limit : Nat) (hl : 0 < limit) (text : List Char) :
    0 < cut_at limit text := by
  simp only [cut_at]
  split
  · omega
  · next h => omega

lemma cut_at_le (limit : Nat) (text : List Char) : cut_at limit text ≤ limit := by
  have h1 := rfind_lt text '\n' limit
  have h2 := rfind_lt text ' ' limit
  simp only [cut_at]
  have hc2 : (if rfind text '\n' limit ≤ 0 then rfind text ' ' limit
      else rfind text '\n' limit) < (limit : Int) := by
    split
    · exact h2
    · exact h1
  split
  · omega
  · omega

lemma split_go_spec (limit : Nat) (hl : 0 < limit) :
    ∀ fuel (text : List Char), text.length ≤ fuel →
      (∀ chunk ∈ split_go limit fuel text, chunk.length ≤ limit) ∧
      Reassembles is_nl_sp text (split_go limit fuel text) := by
  intro fuel
  induction fuel with
  | zero =>
    intro text hf
    have htext : text = [] := List.length_eq_zero.mp (by omega)
    subst htext
    exact ⟨by simp [split_go], Reassembles.nil⟩
  | succ fuel ih =>
    intro text hf
    by_cases hempty : text.isEmpty
    · have htext : text = [] := by
        cases text with
        | nil => rfl
        | cons a l => simp [List.isEmpty] at hempty
      subst htext
      exact ⟨by simp [split_go], Reassembles.nil⟩
    · by_cases hshort : text.length ≤ limit
      · have hres : split_go limit (fuel + 1) text = [text] := by
          simp [split_go, hempty, hshort]
        rw [hres]
        refine ⟨?_, Reassembles.single _ _⟩
        intro chunk hc
        rw [List.mem_singleton] at hc
        rw [hc]
        exact hshort
      · have hc_pos := cut_at_pos limit hl text
        have hc_le := cut_at_le limit text
        have hres : split_go limit (fuel + 1) text =
            text.take (cut_at limit text) ::
              split_go limit fuel (lstrip_nl_sp (text.drop (cut_at limit text))) := by
          simp [split_go, hempty, hshort]
        have hlen_rest : (lstrip_nl_sp (text.drop (cut_at limit text))).length ≤ fuel := by
          have h1 : (lstrip_nl_sp (text.drop (cut_at limit text))).length ≤
              (text.drop (cut_at limit text)).length :=
            (List.dropWhile_sublist _).length_le
          have h2 : (text.drop (cut_at limit text)).length =
              text.length - cut_at limit text := by simp
          omega
        obtain ⟨ihb, ihr⟩ := ih (lstrip_nl_sp (text.drop (cut_at limit text))) hlen_rest
        rw [hres]
        constructor
        · intro chunk hchunk
          rcases List.mem_cons.mp hchunk with h | h
          · rw [h]
            have := List.length_take (cut_at limit text) text
            omega
          · exact ihb chunk h
        · have hsplit : text = text.take (cut_at limit text) ++
              ((text.drop (cut_at limit text)).takeWhile is_nl_sp ++
                lstrip_nl_sp (text.drop (cut_at limit text))) := by
            rw [lstrip_nl_sp, List.takeWhile_append_dropWhile]
            exact (List.take_append_drop (cut_at limit text) text).symm
          have hre := @Reassembles.cons is_nl_sp
            (text.take (cut_at limit text))
            ((text.drop (cut_at limit text)).takeWhile is_nl_sp)
            (lstrip_nl_sp (text.drop (cut_at limit text)))
            (split_go limit fuel (lstrip_nl_sp (text.drop (cut_at limit text))))
            (fun x hx => List.mem_takeWhile_imp hx) ihr
          rw [← hsplit] at hre
          exact hre

lemma split_text_spec (text : List Char) (limit : Nat) (hl : 0 < limit) :
    (∀ chunk ∈ split_text text limit, chunk.length ≤ limit) ∧
    Reassembles is_nl_sp text (split_text text limit) := by
  unfold split_text
  by_cases h : text.length ≤ limit
  · rw [if_pos h]
    refine ⟨?_, Reassembles.single _ _⟩
    intro chunk hc
    rw [List.mem_singleton] at hc
    rw [hc]
    exact h
  · rw [if_neg h]
    exact split_go_spec limit hl text.length text le_rfl

lemma split_text_ne_nil (text : List Char) (limit : Nat) (ht : text ≠ []) :
    split_text text limit ≠ [] := by
  unfold split_text
  by_cases h : text.length ≤ limit
  · simp [h]
  · rw [if_neg h]
    have hlen : text.length ≠ 0 := fun hz => ht (List.length_eq_zero.mp hz)
    cases hf : text.length with
    | zero => exact absurd hf hlen
    | succ n =>
      have hne : ¬text.isEmpty := by
        cases text with
        | nil => exact absurd rfl ht
        | cons a l => simp [List.isEmpty]
      simp only [split_go, hne]
      split <;> simp_all

lemma is_nl_sp_imp_py_space : ∀ c, is_nl_sp c = true → is_py_space c = true := by
  intro c h
  simp only [is_nl_sp, Bool.or_eq_true, decide_eq_true_eq] at h
  rcases h with h | h <;> simp [is_py_space, h]

/-! ### Claim theorems: the text splitter and the sink limits -/

/-- C3: for every text `T` and every limit `L > 0`, every chunk returned
by `_split_text` has length at most `L`, and concatenating the chunks in
order reproduces `T` exactly up to the newline/space characters the
splitter strips at chunk boundaries. -/
theorem split_text_bounds_and_reassembly (text : List Char) (limit : Nat)
    (hl : 0 < limit) :
    (∀ chunk ∈ split_text text limit, chunk.length ≤ limit) ∧
    Reassembles is_nl_sp text (split_text text limit) :=
  split_text_spec text limit hl

/-- Witness for C3 at a concrete text and limit. -/
theorem split_text_bounds_and_reassembly_witness :
    0 < 3 ∧
    ((∀ chunk ∈ split_text ("ab cd\nef".toList) 3, chunk.length ≤ 3) ∧
      Reassembles is_nl_sp ("ab cd\nef".toList) (split_text ("ab cd\nef".toList) 3)) :=
  ⟨by decide, split_text_bounds_and_reassembly ("ab cd\nef".toList) 3 (by decide)⟩

/-- C4: every text body `send_text` posts has length at most `MAX_TEXT`
(4096); every caption `send_media` attaches has length at most
`MAX_CAPTION` (1024); and when a caption exceeds the caption limit, the
original caption is reassembled (up to stripped whitespace) from the
attached caption followed by the trailing text bodies, each of which
also respects the text limit. -/
theorem sink_size_limits_respected :
    (∀ (text body : List Char), body ∈ send_text_bodies text → body.length ≤ MAX_TEXT) ∧
    (∀ (media_type : String) (caption : Option (List Char)) (s : List Char),
      (send_media_payload media_type caption).caption_field = some s →
      s.length ≤ MAX_CAPTION) ∧
    (∀ (media_type : String) (cap : List Char), cap ≠ [] →
      media_type = "image" ∨ media_type = "video" ∨ media_type = "document" →
      ∃ sent trailing,
        send_media_payload media_type (some cap) =
          { caption_field := some sent, trailing_bodies := trailing } ∧
        Reassembles is_py_space cap (sent :: trailing) ∧
        (∀ body ∈ trailing, body.length ≤ MAX_TEXT)) := by
  have hmax : (0 : Nat) < MAX_TEXT := by decide
  have hcut_le : ∀ (cap : List Char),
      (if rfind cap ' ' MAX_CAPTION ≤ 0 then ((MAX_CAPTION : Nat) : Int)
        else rfind cap ' ' MAX_CAPTION).toNat ≤ MAX_CAPTION := by
    intro cap
    have hr := rfind_lt cap ' ' MAX_CAPTION
    split <;> omega
  refine ⟨?_, ?_, ?_⟩
  · intro text body hb
    exact (split_text_spec text MAX_TEXT hmax).1 body hb
  · intro media_type caption s hs
    unfold send_media_payload at hs
    split at hs
    · dsimp only at hs
      split at hs
      · injection hs with hss
        rw [← hss, List.length_take]
        have := hcut_le (caption.getD [])
        omega
      · injection hs with hss
        rw [← hss]
        omega
    · exact absurd hs (by simp)
  · intro media_type cap hne hmt
    have htruthy : truthy (some cap) = true := by
      cases cap with
      | nil => exact absurd rfl hne
      | cons a l => rfl
    unfold send_media_payload
    rw [if_pos ⟨htruthy, hmt⟩]
    by_cases h2 : MAX_CAPTION < (Option.getD (some cap) []).length
    · rw [if_pos h2]
      refine ⟨_, _, rfl, ?_, ?_⟩
      · by_cases hov :
          (py_lstrip ((Option.getD (some cap) []).drop
            (if rfind (Option.getD (some cap) []) ' ' MAX_CAPTION ≤ 0
              then ((MAX_CAPTION : Nat) : Int)
              else rfind (Option.getD (some cap) []) ' ' MAX_CAPTION).toNat)).isEmpty
        · rw [if_pos hov]
          simp only [Option.getD] at hov ⊢
          have hall : ∀ x ∈ cap.drop
              (if rfind cap ' ' MAX_CAPTION ≤ 0 then ((MAX_CAPTION : Nat) : Int)
                else rfind cap ' ' MAX_CAPTION).toNat, is_py_space x = true := by
            have hnil : py_lstrip (cap.drop
                (if rfind cap ' ' MAX_CAPTION ≤ 0 then ((MAX_CAPTION : Nat) : Int)
                  else rfind cap ' ' MAX_CAPTION).toNat) = [] := by
              rwa [List.isEmpty_iff] at hov
            rw [py_lstrip, List.dropWhile_eq_nil_iff] at hnil
            exact hnil
          have hre := @Reassembles.cons is_py_space
            (cap.take (if rfind cap ' ' MAX_CAPTION ≤ 0 then ((MAX_CAPTION : Nat) : Int)
              else rfind cap ' ' MAX_CAPTION).toNat)
            (cap.drop (if rfind cap ' ' MAX_CAPTION ≤ 0 then ((MAX_CAPTION : Nat) : Int)
              else rfind cap ' ' MAX_CAPTION).toNat)
            [] [] hall .nil
          simpa using hre
        · rw [if_neg hov]
          simp only [Option.getD] at hov ⊢
          have hre := (split_text_spec (py_lstrip (cap.drop
              (if rfind cap ' ' MAX_CAPTION ≤ 0 then ((MAX_CAPTION : Nat) : Int)
                else rfind cap ' ' MAX_CAPTION).toNat)) MAX_TEXT hmax).2
          have hre2 := Reassembles.mono is_nl_sp_imp_py_space hre
          have hw : ∀ x ∈ (cap.drop
              (if rfind cap ' ' MAX_CAPTION ≤ 0 then ((MAX_CAPTION : Nat) : Int)
                else rfind cap ' ' MAX_CAPTION).toNat).takeWhile is_py_space,
              is_py_space x = true := fun x hx => List.mem_takeWhile_imp hx
          have hco := @Reassembles.cons is_py_space
            (cap.take (if rfind cap ' ' MAX_CAPTION ≤ 0 then ((MAX_CAPTION : Nat) : Int)
              else rfind cap ' ' MAX_CAPTION).toNat)
            ((cap.drop (if rfind cap ' ' MAX_CAPTION ≤ 0 then ((MAX_CAPTION : Nat) : Int)
              else rfind cap ' ' MAX_CAPTION).toNat).takeWhile is_py_space)
            _ _ hw hre2
          rw [py_lstrip, List.takeWhile_append_dropWhile, List.take_append_drop] at hco
          exact hco
      · intro body hb
        simp only [Option.getD] at hb
        by_cases hov : (py_lstrip (cap.drop
            (if rfind cap ' ' MAX_CAPTION ≤ 0 then ((MAX_CAPTION : Nat) : Int)
              else rfind cap ' ' MAX_CAPTION).toNat)).isEmpty
        · rw [if_pos hov] at hb
          exact absurd hb (by simp)
        · rw [if_neg hov] at hb
          exact (split_text_spec _ MAX_TEXT hmax).1 body hb
    · rw [if_neg h2]
      exact ⟨_, _, rfl, by simpa using Reassembles.single is_py_space cap, by simp⟩

/-- Witness for C4 at concrete inputs. -/
theorem sink_size_limits_respected_witness :
    ("ok".toList ∈ send_text_bodies ("ok".toList) ∧ ("ok".toList).length ≤ MAX_TEXT) ∧
    ((send_media_payload "image" (some ("hi".toList))).caption_field = some ("hi".toList) ∧
      ("hi".toList).length ≤ MAX_CAPTION) ∧
    (∃ sent trailing,
      send_media_payload "image" (some ("hi".toList)) =
        { caption_field := some sent, trailing_bodies := trailing } ∧
      Reassembles is_py_space ("hi".toList) (sent :: trailing) ∧
      (∀ body ∈ trailing, body.length ≤ MAX_TEXT)) := by
  have hmem : "ok".toList ∈ send_text_bodies ("ok".toList) := by decide
  have hcf : (send_media_payload "image" (some ("hi".toList))).caption_field =
      some ("hi".toList) := by decide
  exact ⟨⟨hmem, sink_size_limits_respected.1 ("ok".toList) ("ok".toList) hmem⟩,
    ⟨hcf, sink_size_limits_respected.2.1 "image" (some ("hi".toList)) ("hi".toList) hcf⟩,
    sink_size_limits_respected.2.2 "image" ("hi".toList) (by decide) (Or.inl rfl)⟩

/-- C10: `send_media` attaches a caption only for image, video and
document sends; for sticker and audio sends a supplied caption is
silently discarded — no caption field is set and no trailing overflow
text is sent. -/
theorem sticker_audio_caption_discarded :
    ∀ (caption : Option (List Char)),
      send_media_payload "sticker" caption =
        { caption_field := none, trailing_bodies := [] } ∧
      send_media_payload "audio" caption =
        { caption_field := none, trailing_bodies := [] } := by
  intro caption
  constructor <;>
  · unfold send_media_payload
    rw [if_neg]
    rintro ⟨-, h | h | h⟩ <;> exact absurd h (by decide)

/-! ### Claim theorems: media classification -/

/-- Counterexample to C2: a document whose attribute set contains a
sticker attribute followed by a declared-filename attribute is
classified with the declared filename, not with `"sticker.webp"`. -/
theorem sticker_then_filename_keeps_declared_name :
    detect_media (doc_msg [.sticker, .filename "report.pdf"]) =
      some ("sticker", "application/octet-stream", "report.pdf") ∧
    ("report.pdf" : String) ≠ "sticker.webp" :=
  ⟨rfl, by decide⟩

lemma scan_attr_filename (st : AttrScan) (a : DocAttr) :
    (scan_attr st a).filename = (sets_filename a).getD st.filename := by
  cases a with
  | filename fn => rfl
  | video round => cases round <;> rfl
  | audio voice => cases voice <;> rfl
  | sticker => rfl
  | animated => rfl

lemma getLast_getD_cons (l : List String) :
    ∀ a d : String, ((a :: l).getLast?).getD d = (l.getLast?).getD a := by
  induction l with
  | nil => intro a d; rfl
  | cons b t ih =>
    intro a d
    rw [List.getLast?_cons_cons, ih b d, ih b a]

lemma scan_filename (attrs : List DocAttr) :
    ∀ st : AttrScan, (attrs.foldl scan_attr st).filename =
      ((attrs.filterMap sets_filename).getLast?).getD st.filename := by
  induction attrs with
  | nil => intro st; rfl
  | cons a rest ih =>
    intro st
    rw [List.foldl_cons, ih (scan_attr st a), scan_attr_filename]
    rcases ha : sets_filename a with _ | fn
    · simp [List.filterMap_cons, ha]
    · simp only [List.filterMap_cons, ha, Option.getD_some]
      rw [getLast_getD_cons]

/-- C2 (amended): the filename produced by `_detect_media` is decided by
the last filename-setting attribute in list order: for every document,
whatever its attribute list, the classification's filename equals the
value written by the last attribute that sets the filename (declared
filename, sticker, round video, or voice audio), defaulting to
`"file"`.  In particular the forced names win over a declared filename
that precedes them in the attribute list (sticker yields
`"sticker.webp"`, a round video yields `"video_note.mp4"`, a voice
audio yields `"voice.ogg"`), while a declared filename attribute that
follows the forcing attribute overrides the forced name. -/
theorem forced_filenames_last_writer_wins :
    (∀ (m : Message) (doc : TLDocument),
      m.has_photo = false → m.document = some doc →
      ∃ category mime,
        detect_media m = some (category, mime, last_set_filename doc.attributes)) ∧
    (∀ fn : String,
      detect_media (doc_msg [.filename fn, .sticker]) =
        some ("sticker", "application/octet-stream", "sticker.webp") ∧
      detect_media (doc_msg [.sticker, .filename fn]) =
        some ("sticker", "application/octet-stream", fn) ∧
      detect_media (doc_msg [.filename fn, .video true]) =
        some ("video", "application/octet-stream", "video_note.mp4") ∧
      detect_media (doc_msg [.video true, .filename fn]) =
        some ("video", "application/octet-stream", fn) ∧
      detect_media (doc_msg [.filename fn, .audio true]) =
        some ("audio", "audio/ogg", "voice.ogg") ∧
      detect_media (doc_msg [.audio true, .filename fn]) =
        some ("audio", "audio/ogg", fn)) := by
  constructor
  · intro m doc hp hd
    have hfn : (doc.attributes.foldl scan_attr attr_scan_init).filename =
        last_set_filename doc.attributes := by
      unfold last_set_filename
      exact scan_filename doc.attributes attr_scan_init
    unfold detect_media
    rw [hp, hd]
    simp only [Bool.false_eq_true, if_false]
    split_ifs <;> exact ⟨_, _, by rw [hfn]⟩
  · intro fn
    refine ⟨rfl, rfl, rfl, rfl, rfl, rfl⟩

/-- Witness for C2's amended theorem on a document with three
attributes, a declared filename followed by a sticker attribute and a
non-voice audio attribute; the last filename-setting attribute is the
sticker, so the classified filename is `"sticker.webp"`. -/
theorem forced_filenames_last_writer_wins_witness :
    (doc_msg [.filename "x.bin", .sticker, .audio false]).has_photo = false ∧
    (doc_msg [.filename "x.bin", .sticker, .audio false]).document =
      some { mime_type := none
             attributes := [.filename "x.bin", .sticker, .audio false] } ∧
    ∃ category mime,
      detect_media (doc_msg [.filename "x.bin", .sticker, .audio false]) =
        some (category, mime,
          last_set_filename [.filename "x.bin", .sticker, .audio false]) :=
  ⟨rfl, rfl,
    forced_filenames_last_writer_wins.1
      (doc_msg [.filename "x.bin", .sticker, .audio false])
      { mime_type := none
        attributes := [.filename "x.bin", .sticker, .audio false] } rfl rfl⟩

/-! ### Claim theorems: the filter pipeline -/

lemma eval_loop_append_skip (llm : Llm) (text : String) :
    ∀ (pre : List FilterRule) (r : FilterRule) (post : List FilterRule),
      (∀ r2 ∈ pre, (run_filter llm r2.name r2.prompt text).action ≠ .SKIP) →
      (run_filter llm r.name r.prompt text).action = .SKIP →
      eval_loop llm text (pre ++ r :: post) =
        (run_filter llm r.name r.prompt text,
          pre.map (fun r2 => r2.name) ++ [r.name]) := by
  intro pre
  induction pre with
  | nil =>
    intro r post _ hskip
    simp only [List.nil_append, eval_loop, List.map_nil]
    rw [if_pos hskip]
  | cons p pre ih =>
    intro r post hpre hskip
    have hp : (run_filter llm p.name p.prompt text).action ≠ .SKIP :=
      hpre p (List.mem_cons_self p pre)
    simp only [List.cons_append, eval_loop]
    rw [if_neg hp]
    simp only [List.append_eq]
    rw [ih r post (fun r2 hr2 => hpre r2 (List.mem_cons_of_mem p hr2)) hskip]
    simp

lemma eval_loop_no_skip (llm : Llm) (text : String) :
    ∀ filters : List FilterRule,
      (∀ r ∈ filters, (run_filter llm r.name r.prompt text).action ≠ .SKIP) →
      eval_loop llm text filters =
        ({ action := .FORWARD, reason := "Passed all filters", filter_name := "all" },
          filters.map (fun r => r.name)) := by
  intro filters
  induction filters with
  | nil => intro _; rfl
  | cons r rest ih =>
    intro h
    have hr : (run_filter llm r.name r.prompt text).action ≠ .SKIP :=
      h r (List.mem_cons_self r rest)
    simp only [eval_loop]
    rw [if_neg hr, ih (fun r2 hr2 => h r2 (List.mem_cons_of_mem r hr2))]
    simp

/-- C5: the pipeline returns the verdict of the first configured rule
that produces a skip, invoking the collaborator only for the rules up to
and including it; empty or whitespace-only text, and an empty rule list,
return a default forward verdict with no collaborator invocation at all;
when no rule skips, a default forward verdict with sentinel rule name
`"all"` is returned after invoking every rule. -/
theorem filter_pipeline_first_skip_wins :
    (∀ (llm : Llm) (filters : List FilterRule) (text : String),
      text = "" ∨ py_strip text.toList = [] →
      evaluate llm filters text =
        ({ action := .FORWARD, reason := "No text to analyze", filter_name := "none" }, [])) ∧
    (∀ (llm : Llm) (text : String),
      ¬(text = "" ∨ py_strip text.toList = []) →
      evaluate llm [] text =
        ({ action := .FORWARD, reason := "No filters configured", filter_name := "none" }, [])) ∧
    (∀ (llm : Llm) (pre : List FilterRule) (r : FilterRule) (post : List FilterRule)
      (text : String),
      ¬(text = "" ∨ py_strip text.toList = []) →
      (∀ r2 ∈ pre, (run_filter llm r2.name r2.prompt text).action ≠ .SKIP) →
      (run_filter llm r.name r.prompt text).action = .SKIP →
      evaluate llm (pre ++ r :: post) text =
        (run_filter llm r.name r.prompt text,
          pre.map (fun r2 => r2.name) ++ [r.name])) ∧
    (∀ (llm : Llm) (filters : List FilterRule) (text : String),
      ¬(text = "" ∨ py_strip text.toList = []) → filters ≠ [] →
      (∀ r ∈ filters, (run_filter llm r.name r.prompt text).action ≠ .SKIP) →
      evaluate llm filters text =
        ({ action := .FORWARD, reason := "Passed all filters", filter_name := "all" },
          filters.map (fun r => r.name))) := by
  refine ⟨?_, ?_, ?_, ?_⟩
  · intro llm filters text h
    unfold evaluate
    rw [if_pos h]
  · intro llm text h
    unfold evaluate
    rw [if_neg h, if_pos rfl]
  · intro llm pre r post text h hpre hskip
    unfold evaluate
    rw [if_neg h, if_neg (by simp)]
    exact eval_loop_append_skip llm text pre r post hpre hskip
  · intro llm filters text h hnil hno
    unfold evaluate
    rw [if_neg h, if_neg hnil]
    exact eval_loop_no_skip llm text filters hno

set_option maxRecDepth 10000 in
/-- Witness for C5 at concrete inputs. -/
theorem filter_pipeline_first_skip_wins_witness :
    (evaluate ex_llm [{ name := "r1", prompt := "p1" }] "" =
      ({ action := .FORWARD, reason := "No text to analyze", filter_name := "none" }, [])) ∧
    (evaluate ex_llm [] "x" =
      ({ action := .FORWARD, reason := "No filters configured", filter_name := "none" }, [])) ∧
    (evaluate ex_llm
        [{ name := "r1", prompt := "p1" }, { name := "r2", prompt := "p2" },
          { name := "r3", prompt := "p3" }] "x" =
      (run_filter ex_llm "r2" "p2" "x", ["r1", "r2"])) ∧
    (evaluate ex_llm [{ name := "r1", prompt := "p1" }] "x" =
      ({ action := .FORWARD, reason := "Passed all filters", filter_name := "all" },
        ["r1"])) := by
  refine ⟨filter_pipeline_first_skip_wins.1 ex_llm _ "" (Or.inl rfl),
    filter_pipeline_first_skip_wins.2.1 ex_llm "x" (by decide),
    ?_, filter_pipeline_first_skip_wins.2.2.2 ex_llm _ "x" (by decide) (by decide)
      (by decide)⟩
  exact filter_pipeline_first_skip_wins.2.2.1 ex_llm
    [{ name := "r1", prompt := "p1" }] { name := "r2", prompt := "p2" }
    [{ name := "r3", prompt := "p3" }] "x" (by decide) (by decide) (by decide)

/-- C6: a collaborator error while evaluating a rule is caught inside
`_run_filter` and becomes a forward verdict for that rule (fail-open);
the loop then continues with the remaining rules, and the error never
escapes `evaluate` — with a collaborator that always raises, every rule
is still invoked and the pipeline returns the default forward verdict. -/
theorem filter_error_fails_open :
    (∀ (llm : Llm) (name prompt text : String),
      llm (base_system_prompt prompt) text = .error () →
      run_filter llm name prompt text =
        { action := .FORWARD, reason := "Filter error", filter_name := name }) ∧
    (∀ (llm : Llm) (r : FilterRule) (rest : List FilterRule) (text : String),
      llm (base_system_prompt r.prompt) text = .error () →
      eval_loop llm text (r :: rest) =
        ((eval_loop llm text rest).1, r.name :: (eval_loop llm text rest).2)) ∧
    (∀ (filters : List FilterRule) (text : String),
      ¬(text = "" ∨ py_strip text.toList = []) → filters ≠ [] →
      evaluate (fun _ _ => Except.error ()) filters text =
        ({ action := .FORWARD, reason := "Passed all filters", filter_name := "all" },
          filters.map (fun r => r.name))) := by
  have herr : ∀ (llm : Llm) (name prompt text : String),
      llm (base_system_prompt prompt) text = .error () →
      run_filter llm name prompt text =
        { action := .FORWARD, reason := "Filter error", filter_name := name } := by
    intro llm name prompt text h
    unfold run_filter
    rw [h]
  refine ⟨herr, ?_, ?_⟩
  · intro llm r rest text h
    simp only [eval_loop]
    rw [herr llm r.name r.prompt text h]
    rfl
  · intro filters text htext hne
    unfold evaluate
    rw [if_neg htext, if_neg hne]
    refine eval_loop_no_skip _ text filters ?_
    intro r _
    rw [herr (fun _ _ => Except.error ()) r.name r.prompt text rfl]
    exact fun hc => Action.noConfusion hc

/-- Witness for C6 at concrete inputs. -/
theorem filter_error_fails_open_witness :
    (run_filter (fun _ _ => Except.error ()) "n" "p" "t" =
      { action := .FORWARD, reason := "Filter error", filter_name := "n" }) ∧
    (eval_loop (fun _ _ => Except.error ()) "t" [{ name := "r1", prompt := "p1" }] =
      ((eval_loop (fun _ _ => Except.error ()) "t" []).1,
        "r1" :: (eval_loop (fun _ _ => Except.error ()) "t" []).2)) ∧
    (evaluate (fun _ _ => Except.error ()) [{ name := "r1", prompt := "p1" }] "t" =
      ({ action := .FORWARD, reason := "Passed all filters", filter_name := "all" },
        ["r1"])) :=
  ⟨filter_error_fails_open.1 (fun _ _ => Except.error ()) "n" "p" "t" rfl,
    filter_error_fails_open.2.1 (fun _ _ => Except.error ())
      { name := "r1", prompt := "p1" } [] "t" rfl,
    filter_error_fails_open.2.2 [{ name := "r1", prompt := "p1" }] "t"
      (by decide) (by decide)⟩

/-! ### Claim theorems: the forwarding pipeline -/

lemma album_text_of_ne_empty {messages : List Message} {t : String}
    (h : album_text_of messages = some t) : t ≠ "" := by
  unfold album_text_of at h
  rcases Option.map_eq_some'.mp h with ⟨m, hm, ht⟩
  have hp := List.find?_some hm
  simp only [decide_eq_true_eq] at hp
  rw [← ht]
  exact hp

/-- C7: a skip verdict on a unit's text stops everything: for a single
message whose text the configured filter skips, and for a completed
album whose album text the filter skips, the whole collaborator trace is
exactly one `send_text` carrying the skip notification (channel, rule
name, reason, and the deep link when derivable) — in particular no
media is downloaded, uploaded or sent. -/
theorem skip_verdict_blocks_unit :
    (∀ (f : String → FilterResult) (channel : String) (m : Message),
      m.text ≠ "" → (f m.text).action = .SKIP →
      forward_single (some f) channel m =
        [.send_text (skip_message channel (f m.text)
          (build_source_link m.chat_username m.id))]) ∧
    (∀ (f : String → FilterResult) (channel : String) (first : Message)
        (rest : List Message) (t : String),
      album_text_of (first :: rest) = some t → (f t).action = .SKIP →
      flush_album_msgs (some f) channel (first :: rest) =
        [.send_text (skip_message channel (f t)
          (build_source_link first.chat_username first.id))]) := by
  constructor
  · intro f channel m htext hskip
    simp [forward_single, htext, hskip]
  · intro f channel first rest t hat hskip
    have ht := album_text_of_ne_empty hat
    simp [flush_album_msgs, hat, ht, hskip]

/-- Witness for C7 at concrete inputs. -/
theorem skip_verdict_blocks_unit_witness :
    ((ex_msg 10 "buy now").text ≠ "" ∧
      forward_single
          (some (fun _ => { action := .SKIP, reason := "ad", filter_name := "ads" }))
          "Ch" (ex_msg 10 "buy now") =
        [.send_text (skip_message "Ch"
          { action := .SKIP, reason := "ad", filter_name := "ads" }
          (build_source_link (ex_msg 10 "buy now").chat_username (ex_msg 10 "buy now").id))]) ∧
    (album_text_of [ex_msg 1 "buy", ex_msg 2 ""] = some "buy" ∧
      flush_album_msgs
          (some (fun _ => { action := .SKIP, reason := "ad", filter_name := "ads" }))
          "Ch" [ex_msg 1 "buy", ex_msg 2 ""] =
        [.send_text (skip_message "Ch"
          { action := .SKIP, reason := "ad", filter_name := "ads" }
          (build_source_link (ex_msg 1 "buy").chat_username (ex_msg 1 "buy").id))]) :=
  ⟨⟨by decide,
      skip_verdict_blocks_unit.1
        (fun _ => { action := .SKIP, reason := "ad", filter_name := "ads" }) "Ch"
        (ex_msg 10 "buy now") (by decide) rfl⟩,
    ⟨by decide,
      skip_verdict_blocks_unit.2
        (fun _ => { action := .SKIP, reason := "ad", filter_name := "ads" }) "Ch"
        (ex_msg 1 "buy") [ex_msg 2 ""] "buy" (by decide) rfl⟩⟩

lemma album_fold_ok (caption : String) :
    ∀ (messages : List Message) (acc : List Effect) (b : Bool),
      (∀ m ∈ messages, member_ok m = true) →
      messages.foldl (album_loop_step caption) (acc, b) =
        (acc ++ happy_members caption b messages, b && messages.isEmpty) := by
  intro messages
  induction messages with
  | nil => intro acc b _; simp [happy_members]
  | cons m rest ih =>
    intro acc b hok
    have hmem := hok m (List.mem_cons_self m rest)
    rcases hdm : detect_media m with _ | wtmifn
    · unfold member_ok at hmem
      rw [hdm] at hmem
      simp at hmem
    · obtain ⟨wt, mi, fn⟩ := wtmifn
      rcases hdl : m.download_result with _ | bytes
      · unfold member_ok at hmem
        rw [hdm, hdl] at hmem
        simp at hmem
      · unfold member_ok at hmem
        rw [hdm, hdl] at hmem
        have hsup : mi ∈ WA_SUPPORTED_MIMES := by simpa using hmem
        have hstep : album_loop_step caption (acc, b) m =
            (acc ++ [.download_media m.id, .upload_media bytes mi fn,
              .send_media wt (if b then some caption else none)], false) := by
          simp [album_loop_step, hdm, hdl, hsup]
        rw [List.foldl_cons, hstep,
          ih _ false (fun m2 h2 => hok m2 (List.mem_cons_of_mem m h2))]
        simp [happy_members, member_effects, hdm, hdl]

lemma album_fold_excluded (caption : String) :
    ∀ (messages : List Message) (acc : List Effect) (b : Bool),
      (∀ m ∈ messages, excluded m = true) →
      messages.foldl (album_loop_step caption) (acc, b) =
        (acc ++ attempted_downloads messages, b) := by
  intro messages
  induction messages with
  | nil => intro acc b _; simp [attempted_downloads]
  | cons m rest ih =>
    intro acc b hexc
    have hmem := hexc m (List.mem_cons_self m rest)
    have hrest := fun m2 h2 => hexc m2 (List.mem_cons_of_mem m h2)
    rcases hdm : detect_media m with _ | wtmifn
    · have hstep : album_loop_step caption (acc, b) m = (acc, b) := by
        simp [album_loop_step, hdm]
      rw [List.foldl_cons, hstep, ih acc b hrest]
      simp [attempted_downloads, hdm]
    · obtain ⟨wt, mi, fn⟩ := wtmifn
      unfold excluded at hmem
      rw [hdm] at hmem
      simp only [Bool.or_eq_true, decide_eq_true_eq] at hmem
      by_cases hsup : mi ∈ WA_SUPPORTED_MIMES
      · have hdl : m.download_result = none := by
          rcases hmem with h | h
          · exact absurd hsup h
          · exact h
        have hstep : album_loop_step caption (acc, b) m =
            (acc ++ [.download_media m.id], b) := by
          simp [album_loop_step, hdm, hdl, hsup]
        rw [List.foldl_cons, hstep, ih _ b hrest]
        simp [attempted_downloads, hdm, hdl, hsup]
      · have hstep : album_loop_step caption (acc, b) m = (acc, b) := by
          simp [album_loop_step, hdm, hsup]
        rw [List.foldl_cons, hstep, ih acc b hrest]
        simp [attempted_downloads, hdm, hsup]

lemma send_media_captions_append (t1 t2 : List Effect) :
    send_media_captions (t1 ++ t2) =
      send_media_captions t1 ++ send_media_captions t2 := by
  unfold send_media_captions
  exact List.filterMap_append t1 t2 _

lemma send_media_captions_happy (caption : String) :
    ∀ (messages : List Message) (b : Bool),
      (∀ m ∈ messages, member_ok m = true) → messages ≠ [] →
      send_media_captions (happy_members caption b messages) =
        (if b then some caption else none) ::
          List.replicate (messages.length - 1) (none : Option String) := by
  intro messages
  induction messages with
  | nil => intro b _ hne; exact absurd rfl hne
  | cons m rest ih =>
    intro b hok _
    have hmem := hok m (List.mem_cons_self m rest)
    rcases hdm : detect_media m with _ | wtmifn
    · unfold member_ok at hmem
      rw [hdm] at hmem
      simp at hmem
    · obtain ⟨wt, mi, fn⟩ := wtmifn
      rcases hdl : m.download_result with _ | bytes
      · unfold member_ok at hmem
        rw [hdm, hdl] at hmem
        simp at hmem
      · have hme : member_effects m (if b then some caption else none) =
            [.download_media m.id, .upload_media bytes mi fn,
              .send_media wt (if b then some caption else none)] := by
          simp [member_effects, hdm, hdl]
        rcases hrest : rest with _ | ⟨m2, rest2⟩
        · simp [happy_members, hme, send_media_captions]
        · rw [← hrest]
          have hrne : rest ≠ [] := by rw [hrest]; exact List.cons_ne_nil m2 rest2
          have ihr := ih false (fun m2 h2 => hok m2 (List.mem_cons_of_mem m h2)) hrne
          simp only [happy_members, send_media_captions_append, hme, ihr]
          have hlen : rest.length - 1 + 1 = rest.length := by
            rw [hrest]; simp
          simp [send_media_captions, List.length_cons, ← List.replicate_succ, hlen]

lemma flush_album_msgs_no_skip (filt : RouterFilter) (channel : String)
    (first : Message) (rest : List Message)
    (hfil : ∀ (f : String → FilterResult) (t : String), filt = some f →
      album_text_of (first :: rest) = some t → (f t).action ≠ .SKIP) :
    flush_album_msgs filt channel (first :: rest) =
      (let caption := format_caption channel first.local_time
        (album_text_of (first :: rest))
        (build_source_link first.chat_username first.id)
      let r := (first :: rest).foldl (album_loop_step caption) ([], true)
      if r.2 then
        match album_text_of (first :: rest) with
        | some t => r.1 ++ [.send_text (format_text channel first.local_time t
            (build_source_link first.chat_username first.id))]
        | none => r.1
      else r.1) := by
  rcases hat : album_text_of (first :: rest) with _ | t
  · rcases filt with _ | f <;> simp [flush_album_msgs, hat]
  · rcases filt with _ | f
    · simp [flush_album_msgs, hat]
    · have ht := album_text_of_ne_empty hat
      have hns := hfil f t rfl hat
      simp [flush_album_msgs, hat, ht, hns]

/-- C9: for a completed album all of whose members classify as
supported and download successfully (and that the filter does not
skip), the trace is exactly one fetch-upload-send triple per member in
arrival order, and the caption — built by `_format_caption` from the
channel name, the first message's rendered timestamp, the source link
and the album text (the text of the first message in arrival order with
non-empty text) — is carried only by the first `send_media` call; every
later `send_media` call carries no caption. -/
theorem album_caption_on_first_send_only :
    ∀ (filt : RouterFilter) (channel : String) (first : Message) (rest : List Message),
      (∀ m ∈ first :: rest, member_ok m = true) →
      (∀ (f : String → FilterResult) (t : String), filt = some f →
        album_text_of (first :: rest) = some t → (f t).action ≠ .SKIP) →
      flush_album_msgs filt channel (first :: rest) =
        happy_members (format_caption channel first.local_time
          (album_text_of (first :: rest))
          (build_source_link first.chat_username first.id)) true (first :: rest) ∧
      send_media_captions (flush_album_msgs filt channel (first :: rest)) =
        some (format_caption channel first.local_time (album_text_of (first :: rest))
          (build_source_link first.chat_username first.id)) ::
          List.replicate rest.length (none : Option String) := by
  intro filt channel first rest hok hfil
  have hmain : flush_album_msgs filt channel (first :: rest) =
      happy_members (format_caption channel first.local_time
        (album_text_of (first :: rest))
        (build_source_link first.chat_username first.id)) true (first :: rest) := by
    rw [flush_album_msgs_no_skip filt channel first rest hfil]
    simp only []
    rw [album_fold_ok _ (first :: rest) [] true hok]
    simp
  refine ⟨hmain, ?_⟩
  rw [hmain, send_media_captions_happy _ (first :: rest) true hok (List.cons_ne_nil first rest)]
  simp

/-- Witness for C9 at a concrete two-member album. -/
theorem album_caption_on_first_send_only_witness :
    (∀ m ∈ [ex_msg 1 "cap", ex_msg 2 ""], member_ok m = true) ∧
    (flush_album_msgs none "Ch" [ex_msg 1 "cap", ex_msg 2 ""] =
      happy_members (format_caption "Ch" (ex_msg 1 "cap").local_time
        (album_text_of [ex_msg 1 "cap", ex_msg 2 ""])
        (build_source_link (ex_msg 1 "cap").chat_username (ex_msg 1 "cap").id)) true
        [ex_msg 1 "cap", ex_msg 2 ""] ∧
    send_media_captions (flush_album_msgs none "Ch" [ex_msg 1 "cap", ex_msg 2 ""]) =
      some (format_caption "Ch" (ex_msg 1 "cap").local_time
        (album_text_of [ex_msg 1 "cap", ex_msg 2 ""])
        (build_source_link (ex_msg 1 "cap").chat_username (ex_msg 1 "cap").id)) ::
        List.replicate 1 (none : Option String)) :=
  ⟨by decide,
    album_caption_on_first_send_only none "Ch" (ex_msg 1 "cap") [ex_msg 2 ""]
      (by decide) (fun f t h => nomatch h)⟩

lemma album_fold_mixed (caption : String) :
    ∀ (messages : List Message) (acc : List Effect) (b : Bool),
      messages.foldl (album_loop_step caption) (acc, b) =
        (acc ++ mixed_members caption b messages,
          b && !(messages.any member_ok)) := by
  intro messages
  induction messages with
  | nil => intro acc b; simp [mixed_members]
  | cons m rest ih =>
    intro acc b
    rw [List.foldl_cons]
    rcases hdm : detect_media m with _ | wtmifn
    · have hokf : member_ok m = false := by
        unfold member_ok
        rw [hdm]
      have hstep : album_loop_step caption (acc, b) m = (acc, b) := by
        simp [album_loop_step, hdm]
      rw [hstep, ih acc b]
      simp [mixed_members, hdm, hokf]
    · obtain ⟨wt, mi, fn⟩ := wtmifn
      by_cases hsup : mi ∈ WA_SUPPORTED_MIMES
      · rcases hdl : m.download_result with _ | bytes
        · have hokf : member_ok m = false := by
            unfold member_ok
            rw [hdm, hdl]
          have hstep : album_loop_step caption (acc, b) m =
              (acc ++ [.download_media m.id], b) := by
            simp [album_loop_step, hdm, hdl, hsup]
          rw [hstep, ih _ b]
          simp [mixed_members, hdm, hdl, hsup, hokf]
        · have hokt : member_ok m = true := by
            unfold member_ok
            rw [hdm, hdl]
            simpa using hsup
          have hstep : album_loop_step caption (acc, b) m =
              (acc ++ [.download_media m.id, .upload_media bytes mi fn,
                .send_media wt (if b then some caption else none)], false) := by
            simp [album_loop_step, hdm, hdl, hsup]
          rw [hstep, ih _ false]
          simp [mixed_members, hdm, hdl, hsup, hokt]
      · have hokf : member_ok m = false := by
          unfold member_ok
          rw [hdm]
          rcases hdl : m.download_result with _ | bytes
          · rfl
          · simpa using hsup
        have hstep : album_loop_step caption (acc, b) m = (acc, b) := by
          simp [album_loop_step, hdm, hsup]
        rw [hstep, ih acc b]
        simp [mixed_members, hdm, hsup, hokf]

/-- C8: an absent media fetch never escapes the pipeline.  For a single
message with supported media whose download returns `None`, the trace
is the fetch attempt followed by a text fallback when the message has
text, and nothing else when it has none.  For any album (second part),
each member contributes exactly its `mixed_members` effects: members
without media or with unsupported mime are silently excluded, a
supported member whose download fails contributes only the fetch
attempt, deliverable members are delivered — and the text fallback is
sent exactly when no member was delivered and album text exists.  The
third part specialises to an album all of whose members are excluded:
only the failed fetch attempts, then a single text send when album text
exists, and nothing else when it does not. -/
theorem fetch_failure_degrades_gracefully :
    (∀ (filt : RouterFilter) (channel : String) (m : Message) (wt mi fn : String),
      detect_media m = some (wt, mi, fn) → mi ∈ WA_SUPPORTED_MIMES →
      m.download_result = none →
      (∀ f : String → FilterResult, filt = some f → m.text ≠ "" →
        (f m.text).action ≠ .SKIP) →
      forward_single filt channel m =
        .download_media m.id ::
          (if m.text ≠ "" then
            [.send_text (format_text channel m.local_time m.text
              (build_source_link m.chat_username m.id))]
          else [])) ∧
    (∀ (filt : RouterFilter) (channel : String) (first : Message) (rest : List Message),
      (∀ (f : String → FilterResult) (t : String), filt = some f →
        album_text_of (first :: rest) = some t → (f t).action ≠ .SKIP) →
      flush_album_msgs filt channel (first :: rest) =
        mixed_members (format_caption channel first.local_time
          (album_text_of (first :: rest))
          (build_source_link first.chat_username first.id)) true (first :: rest) ++
          (if (first :: rest).any member_ok then []
          else
            match album_text_of (first :: rest) with
            | some t => [.send_text (format_text channel first.local_time t
                (build_source_link first.chat_username first.id))]
            | none => [])) ∧
    (∀ (filt : RouterFilter) (channel : String) (first : Message) (rest : List Message),
      (∀ m ∈ first :: rest, excluded m = true) →
      (∀ (f : String → FilterResult) (t : String), filt = some f →
        album_text_of (first :: rest) = some t → (f t).action ≠ .SKIP) →
      flush_album_msgs filt channel (first :: rest) =
        attempted_downloads (first :: rest) ++
          (match album_text_of (first :: rest) with
          | some t => [.send_text (format_text channel first.local_time t
              (build_source_link first.chat_username first.id))]
          | none => [])) := by
  refine ⟨?_, ?_, ?_⟩
  · intro filt channel m wt mi fn hdm hsup hdl hfil
    rcases filt with _ | f
    · simp [forward_single, hdm, hdl, hsup]
    · by_cases htext : m.text = ""
      · simp [forward_single, htext, hdm, hdl, hsup]
      · have hns := hfil f rfl htext
        simp [forward_single, htext, hns, hdm, hdl, hsup]
  · intro filt channel first rest hfil
    rw [flush_album_msgs_no_skip filt channel first rest hfil]
    dsimp only
    rw [album_fold_mixed _ (first :: rest) [] true]
    cases hany : (first :: rest).any member_ok
    · simp only [hany, Bool.not_false, Bool.and_true]
      rcases album_text_of (first :: rest) with _ | t <;> simp
    · simp only [hany, Bool.not_true, Bool.and_false]
      simp
  · intro filt channel first rest hexc hfil
    rw [flush_album_msgs_no_skip filt channel first rest hfil]
    simp only []
    rw [album_fold_excluded _ (first :: rest) [] true hexc]
    rcases album_text_of (first :: rest) with _ | t <;> simp

/-- Witness for C8 at concrete inputs: a photo message whose download
fails, a mixed two-member album (one deliverable member, one whose
download fails), and a one-member album whose only member fails to
download. -/
theorem fetch_failure_degrades_gracefully_witness :
    (detect_media { ex_msg 5 "caption" with download_result := none } =
        some ("image", "image/jpeg", "photo.jpg") ∧
      ("image/jpeg" : String) ∈ WA_SUPPORTED_MIMES ∧
      forward_single none "Ch" { ex_msg 5 "caption" with download_result := none } =
        .download_media 5 ::
          (if ({ ex_msg 5 "caption" with download_result := none } : Message).text ≠ "" then
            [.send_text (format_text "Ch"
              ({ ex_msg 5 "caption" with download_result := none } : Message).local_time
              ({ ex_msg 5 "caption" with download_result := none } : Message).text
              (build_source_link
                ({ ex_msg 5 "caption" with download_result := none } : Message).chat_username
                5))]
          else [])) ∧
    (flush_album_msgs none "Ch"
        [ex_msg 7 "cap", { ex_msg 8 "" with download_result := none }] =
      mixed_members (format_caption "Ch" (ex_msg 7 "cap").local_time
          (album_text_of [ex_msg 7 "cap", { ex_msg 8 "" with download_result := none }])
          (build_source_link (ex_msg 7 "cap").chat_username (ex_msg 7 "cap").id)) true
          [ex_msg 7 "cap", { ex_msg 8 "" with download_result := none }] ++
        (if ([ex_msg 7 "cap",
              { ex_msg 8 "" with download_result := none }]).any member_ok then []
        else
          match album_text_of
              [ex_msg 7 "cap", { ex_msg 8 "" with download_result := none }] with
          | some t => [.send_text (format_text "Ch" (ex_msg 7 "cap").local_time t
              (build_source_link (ex_msg 7 "cap").chat_username (ex_msg 7 "cap").id))]
          | none => [])) ∧
    ((∀ m ∈ [{ ex_msg 6 "cap" with download_result := none }], excluded m = true) ∧
      flush_album_msgs none "Ch" [{ ex_msg 6 "cap" with download_result := none }] =
        attempted_downloads [{ ex_msg 6 "cap" with download_result := none }] ++
          (match album_text_of [{ ex_msg 6 "cap" with download_result := none }] with
          | some t => [.send_text (format_text "Ch"
              ({ ex_msg 6 "cap" with download_result := none } : Message).local_time t
              (build_source_link
                ({ ex_msg 6 "cap" with download_result := none } : Message).chat_username
                6))]
          | none => [])) :=
  ⟨⟨by decide, by decide,
      fetch_failure_degrades_gracefully.1 none "Ch"
        { ex_msg 5 "caption" with download_result := none } "image" "image/jpeg" "photo.jpg"
        (by decide) (by decide) rfl (fun f h => nomatch h)⟩,
    fetch_failure_degrades_gracefully.2.1 none "Ch" (ex_msg 7 "cap")
      [{ ex_msg 8 "" with download_result := none }] (fun f t h => nomatch h),
    ⟨by decide,
      fetch_failure_degrades_gracefully.2.2 none "Ch"
        { ex_msg 6 "cap" with download_result := none } []
        (by decide) (fun f t h => nomatch h)⟩⟩

/-! ### Claim theorems: the pending-album map discipline -/

lemma pending_keys_update (st : Pending) (gid : Nat) (album : PendingAlbum) :
    pending_keys (update_pending st gid album) = pending_keys st := by
  unfold pending_keys update_pending
  rw [List.map_map]
  refine List.map_congr_left ?_
  intro e _
  by_cases h : e.1 = gid <;> simp [h]

lemma lookup_pending_none_notin {st : Pending} {gid : Nat}
    (h : lookup_pending st gid = none) : gid ∉ pending_keys st := by
  intro hmem
  rcases List.mem_map.mp hmem with ⟨e, he, hfst⟩
  unfold lookup_pending at h
  have hne := List.find?_eq_none.mp (Option.map_eq_none'.mp h) e he
  simp only [decide_eq_true_eq] at hne
  exact hne hfst

lemma lookup_remove_self (st : Pending) (gid : Nat) :
    lookup_pending (remove_pending st gid) gid = none := by
  unfold lookup_pending remove_pending
  rw [Option.map_eq_none', List.find?_eq_none]
  intro e he
  have h2 := (List.mem_filter.mp he).2
  simp only [decide_eq_true_eq] at h2 ⊢
  exact h2

lemma lookup_update_self (st : Pending) (gid : Nat) (album : PendingAlbum) :
    lookup_pending (update_pending st gid album) gid =
      (lookup_pending st gid).map (fun _ => album) := by
  induction st with
  | nil => rfl
  | cons e t ih =>
    by_cases h : e.1 = gid
    · unfold lookup_pending update_pending
      rw [List.map_cons, if_pos h,
        List.find?_cons_of_pos _ (by simpa using h),
        List.find?_cons_of_pos _ (by simpa using h)]
      rfl
    · unfold lookup_pending update_pending at ih ⊢
      rw [List.map_cons, if_neg h,
        List.find?_cons_of_neg _ (by simpa using h),
        List.find?_cons_of_neg _ (by simpa using h)]
      exact ih

lemma lookup_append_new (gid : Nat) (album : PendingAlbum) :
    ∀ st : Pending, lookup_pending st gid = none →
      lookup_pending (st ++ [(gid, album)]) gid = some album := by
  intro st
  induction st with
  | nil =>
    intro _
    unfold lookup_pending
    rw [List.nil_append, List.find?_cons_of_pos _ (by simp)]
    rfl
  | cons e t ih =>
    intro h
    have hne : ¬ e.1 = gid := by
      have := List.find?_eq_none.mp (Option.map_eq_none'.mp h) e (List.mem_cons_self e t)
      simpa using this
    have ht : lookup_pending t gid = none := by
      unfold lookup_pending at h ⊢
      rw [List.find?_cons_of_neg _ (by simpa using hne)] at h
      exact h
    unfold lookup_pending at ih ⊢
    rw [List.cons_append, List.find?_cons_of_neg _ (by simpa using hne)]
    exact ih ht

lemma pending_keys_add_nodup (st : Pending) (gid : Nat) (ch : String) (m : Message)
    (h : (pending_keys st).Nodup) :
    (pending_keys (add_to_album st gid ch m)).Nodup := by
  unfold add_to_album
  rcases hl : lookup_pending st gid with _ | album
  · have hnotin : gid ∉ pending_keys st := lookup_pending_none_notin hl
    simp only [pending_keys, List.map_append]
    refine h.append (List.nodup_singleton gid) ?_
    intro a ha hb
    simp only [List.map_cons, List.map_nil, List.mem_singleton] at hb
    subst hb
    exact hnotin ha
  · rw [pending_keys_update]
    exact h

lemma flush_album_step_of_some {filt : RouterFilter} {st : Pending} {gid : Nat}
    {album : PendingAlbum} (h : lookup_pending st gid = some album) :
    flush_album_step filt st gid =
      (remove_pending st gid,
        flush_album_msgs filt album.channel_name album.messages) := by
  unfold flush_album_step
  rw [h]

lemma flush_album_step_of_none {filt : RouterFilter} {st : Pending} {gid : Nat}
    (h : lookup_pending st gid = none) :
    flush_album_step filt st gid = (st, []) := by
  unfold flush_album_step
  rw [h]

lemma flush_album_step_removes (filt : RouterFilter) (st : Pending) (gid : Nat) :
    lookup_pending (flush_album_step filt st gid).1 gid = none ∧
    flush_album_step filt (flush_album_step filt st gid).1 gid =
      ((flush_album_step filt st gid).1, []) := by
  rcases hl : lookup_pending st gid with _ | album
  · rw [flush_album_step_of_none hl]
    exact ⟨hl, flush_album_step_of_none hl⟩
  · rw [flush_album_step_of_some hl]
    exact ⟨lookup_remove_self st gid,
      flush_album_step_of_none (lookup_remove_self st gid)⟩

lemma flush_pending_fold (filt : RouterFilter) :
    ∀ (st : Pending) (acc : List Effect),
      (pending_keys st).Nodup →
      (st.map Prod.fst).foldl
        (fun a gid =>
          let r := flush_album_step filt a.1 gid
          (r.1, a.2 ++ r.2)) (st, acc) =
      ([], acc ++
        (st.map (fun e => flush_album_msgs filt e.2.channel_name e.2.messages)).flatten) := by
  intro st
  induction st with
  | nil => intro acc _; simp
  | cons e t ih =>
    intro acc hnd
    obtain ⟨k, a⟩ := e
    have hkt := List.nodup_cons.mp (show (k :: pending_keys t).Nodup from hnd)
    have hk : k ∉ pending_keys t := hkt.1
    have hndt : (pending_keys t).Nodup := hkt.2
    have hlook : lookup_pending ((k, a) :: t) k = some a := by
      unfold lookup_pending
      rw [List.find?_cons_of_pos _ (by simp)]
      rfl
    have hremove : remove_pending ((k, a) :: t) k = t := by
      unfold remove_pending
      rw [List.filter_cons_of_neg (by simp)]
      refine List.filter_eq_self.mpr ?_
      intro x hx
      have : x.1 ∈ pending_keys t := List.mem_map_of_mem Prod.fst hx
      have hxk : ¬ x.1 = k := fun hxe => hk (hxe ▸ this)
      simpa using hxk
    rw [List.map_cons, List.foldl_cons]
    dsimp only
    rw [flush_album_step_of_some hlook]
    dsimp only
    rw [hremove, ih _ hndt]
    simp

/-- C1: the pending-album map discipline guarantees exactly-once
completion.  Buffering preserves key uniqueness (at most one pending
group per key); `_flush_album` removes the group from the map before
processing, so a second completion of the same key — whichever of the
debounce timer or a forced flush fires second — is a no-op with no
effects; buffering appends each arriving message at the end of its
group, and completion processes exactly the stored message list, so
messages are processed in arrival order; a forced `flush_pending`
completes every pending group exactly once and leaves the map empty. -/
theorem album_group_completes_exactly_once :
    (∀ (st : Pending) (gid : Nat) (ch : String) (m : Message),
      (pending_keys st).Nodup → (pending_keys (add_to_album st gid ch m)).Nodup) ∧
    (∀ (filt : RouterFilter) (st : Pending) (gid : Nat),
      lookup_pending (flush_album_step filt st gid).1 gid = none ∧
      flush_album_step filt (flush_album_step filt st gid).1 gid =
        ((flush_album_step filt st gid).1, [])) ∧
    (∀ (filt : RouterFilter) (st : Pending) (gid : Nat) (album : PendingAlbum),
      lookup_pending st gid = some album →
      flush_album_step filt st gid =
        (remove_pending st gid,
          flush_album_msgs filt album.channel_name album.messages)) ∧
    (∀ (st : Pending) (gid : Nat) (ch : String) (m : Message) (album : PendingAlbum),
      lookup_pending st gid = some album →
      lookup_pending (add_to_album st gid ch m) gid =
        some { album with messages := album.messages ++ [m] }) ∧
    (∀ (st : Pending) (gid : Nat) (ch : String) (m : Message),
      lookup_pending st gid = none →
      lookup_pending (add_to_album st gid ch m) gid =
        some { channel_name := ch, messages := [m] }) ∧
    (∀ (filt : RouterFilter) (st : Pending),
      (pending_keys st).Nodup →
      flush_pending_all filt st =
        ([], (st.map (fun e =>
          flush_album_msgs filt e.2.channel_name e.2.messages)).flatten)) := by
  refine ⟨pending_keys_add_nodup, flush_album_step_removes, ?_, ?_, ?_, ?_⟩
  · intro filt st gid album h
    exact flush_album_step_of_some h
  · intro st gid ch m album h
    unfold add_to_album
    rw [h, lookup_update_self, h]
    rfl
  · intro st gid ch m h
    unfold add_to_album
    rw [h]
    exact lookup_append_new gid _ st h
  · intro filt st h
    unfold flush_pending_all
    exact flush_pending_fold filt st [] h

/-- Witness for C1 on a concrete one-group pending map. -/
theorem album_group_completes_exactly_once_witness :
    ((pending_keys ([(1, { channel_name := "A", messages := [ex_msg 1 "a"] })] :
        Pending)).Nodup ∧
      (pending_keys (add_to_album
        [(1, { channel_name := "A", messages := [ex_msg 1 "a"] })] 2 "B"
        (ex_msg 2 "b"))).Nodup) ∧
    (flush_album_step none [(1, { channel_name := "A", messages := [ex_msg 1 "a"] })] 1 =
      (remove_pending [(1, { channel_name := "A", messages := [ex_msg 1 "a"] })] 1,
        flush_album_msgs none "A" [ex_msg 1 "a"])) ∧
    (lookup_pending (add_to_album
        [(1, { channel_name := "A", messages := [ex_msg 1 "a"] })] 1 "A"
        (ex_msg 2 "b")) 1 =
      some { channel_name := "A", messages := [ex_msg 1 "a"] ++ [ex_msg 2 "b"] }) ∧
    (lookup_pending (add_to_album [] 1 "A" (ex_msg 1 "a")) 1 =
      some { channel_name := "A", messages := [ex_msg 1 "a"] }) ∧
    (flush_pending_all none [(1, { channel_name := "A", messages := [ex_msg 1 "a"] })] =
      ([], (([(1, { channel_name := "A", messages := [ex_msg 1 "a"] })] : Pending).map
        (fun e => flush_album_msgs none e.2.channel_name e.2.messages)).flatten)) :=
  ⟨⟨by decide,
      album_group_completes_exactly_once.1
        [(1, { channel_name := "A", messages := [ex_msg 1 "a"] })] 2 "B"
        (ex_msg 2 "b") (by decide)⟩,
    album_group_completes_exactly_once.2.2.1 none
      [(1, { channel_name := "A", messages := [ex_msg 1 "a"] })] 1
      { channel_name := "A", messages := [ex_msg 1 "a"] } rfl,
    album_group_completes_exactly_once.2.2.2.1
      [(1, { channel_name := "A", messages := [ex_msg 1 "a"] })] 1 "A"
      (ex_msg 2 "b") { channel_name := "A", messages := [ex_msg 1 "a"] } rfl,
    album_group_completes_exactly_once.2.2.2.2.1 [] 1 "A" (ex_msg 1 "a") rfl,
    album_group_completes_exactly_once.2.2.2.2.2 none
      [(1, { channel_name := "A", messages := [ex_msg 1 "a"] })] (by decide)⟩

end TgWa
